import Mathlib

/-!
Verification of the JPYCv2 hardhat task scripts (`tasks/actions.js`,
`tasks/admin.js`, `tasks/deploy.js`).

The scripts are thin orchestration glue over external capabilities
(the ethers library, the process environment, and a JSON file store).
We embed the scripts shallowly:

* the ethers `utils` object is a structure of abstract functions
  (`EthUtils`); the EIP-55 checksum (`getAddress`) and address validity
  (`isAddress`) are delegated capabilities, exactly as in the source;
* `BigNumber.from` and `utils.parseUnits` are modelled concretely on
  decimal strings (the inputs the tasks receive from the CLI);
* the process environment is a map `String → Option String`
  (a variable that is unset is `none`);
* the deployments directory is a map from file name to the parsed
  record it holds (`FS`); the `JSON.stringify`/`JSON.parse` round trip
  performed by the store is modelled as the identity on records;
* throwing is modelled with `Except`; command handlers additionally
  return the list of contract method invocations they performed.
-/

set_option autoImplicit false

/-!
JS string primitives.  The embeddings below use structurally recursive
character-list implementations of the JS string operations the tasks
rely on (`toLowerCase`, `trim`, `split`, `startsWith`, a global
single-character `replace`), so that every definition evaluates inside
the kernel.  The task inputs are ASCII command-line strings, on which
these agree with the JS operations.
-/

/-- JS `toLowerCase` on ASCII strings. -/
def strToLower (s : String) : String := ⟨s.data.map Char.toLower⟩

/-- JS `trim`: strip whitespace from both ends. -/
def strTrim (s : String) : String :=
  ⟨(s.data.dropWhile Char.isWhitespace).reverse.dropWhile Char.isWhitespace |>.reverse⟩

/-- JS `startsWith` for a single-character prefix test. -/
def strStartsWith (s p : String) : Bool := p.data.isPrefixOf s.data

/-- Drop the first `n` characters. -/
def strDrop (s : String) (n : Nat) : String := ⟨s.data.drop n⟩

/-- Split on a separator character, JS `split(sep)` style. -/
def splitOnChar (sep : Char) (cs : List Char) : List (List Char) :=
  match cs with
  | [] => [[]]
  | c :: rest =>
    let tail := splitOnChar sep rest
    if c = sep then [] :: tail
    else
      match tail with
      | [] => [[c]]
      | t :: ts => (c :: t) :: ts

/-- JS `split` on a separator character, returned as strings. -/
def strSplit (s : String) (sep : Char) : List String :=
  (splitOnChar sep s.data).map (fun cs => ⟨cs⟩)

/-- JS global single-character `replace`, as in `replace(/[:]/g, '-')`. -/
def strReplaceChar (s : String) (pat repl : Char) : String :=
  ⟨s.data.map (fun c => if c = pat then repl else c)⟩

/-- Decidable equality for `Except` results, used to evaluate the
theorems on explicit inputs. -/
instance {ε α : Type} [DecidableEq ε] [DecidableEq α] : DecidableEq (Except ε α)
  | .error e, .error f =>
    match decEq e f with
    | isTrue h => isTrue (h ▸ rfl)
    | isFalse h => isFalse (fun hh => h (Except.error.inj hh))
  | .error _, .ok _ => isFalse (fun hh => Except.noConfusion hh)
  | .ok _, .error _ => isFalse (fun hh => Except.noConfusion hh)
  | .ok a, .ok b =>
    match decEq a b with
    | isTrue h => isTrue (h ▸ rfl)
    | isFalse h => isFalse (fun hh => h (Except.ok.inj hh))

/-- The zero address constant from the three task files. -/
def ZERO_ADDRESS : String := "0x0000000000000000000000000000000000000000"

/-- JS truthiness of `process.env` lookups and optional string
parameters: `undefined` and the empty string are falsy. -/
def truthy : Option String → Bool
  | none => false
  | some s => s ≠ ""

/-- The JS `||` operator on possibly-undefined strings: yields the left
operand when it is truthy, otherwise the right operand. -/
def jsOr (a b : Option String) : Option String :=
  if truthy a then a else b

/-- Capability surface of the external ethers `utils` object used by the
tasks: address validity and EIP-55 checksumming are delegated to it. -/
structure EthUtils where
  isAddress : String → Bool
  getAddress : String → String

/-- Hexadecimal digit test, used by the concrete mock of `EthUtils`. -/
def isHexDigitChar (c : Char) : Bool :=
  c.isDigit || (('a' ≤ c) && (c ≤ 'f')) || (('A' ≤ c) && (c ≤ 'F'))

/-- Concrete stand-in for the ethers `utils` object, used to evaluate the
theorems on explicit inputs: a valid address is `0x` followed by 40 hex
digits, and the canonical form is the lower-cased address. -/
def mockEthUtils : EthUtils where
  isAddress s := strStartsWith s "0x" && s.length == 42 && (strDrop s 2).data.all isHexDigitChar
  getAddress s := strToLower s

/-- A JS number as the tasks observe it: either an integer value or a
non-integer (`NaN`, a fractional value, an infinity). -/
inductive JsNum where
  | int (n : Int)
  | nonInt
  deriving DecidableEq, Repr

/-- The decimals value is an integer within `[0, 255]` - the condition
checked by `loadParams` and the non-raw branch of `normalizeAmount`. -/
def JsNum.intInRange : JsNum → Prop
  | .int n => 0 ≤ n ∧ n ≤ 255
  | .nonInt => False

instance : (d : JsNum) → Decidable d.intInRange
  | .int n => inferInstanceAs (Decidable (0 ≤ n ∧ n ≤ 255))
  | .nonInt => isFalse id

/-- Parse a nonempty string of decimal digits. -/
def parseDigits? (cs : List Char) : Option Nat :=
  if cs.isEmpty then none
  else cs.foldlM (fun acc c => if c.isDigit then some (acc * 10 + (c.toNat - 48)) else none) 0

/-- Model of `ethers.BigNumber.from` on the decimal strings the CLI
passes to the tasks: an optional leading minus sign followed by digits;
anything else is rejected. -/
def bigNumberFrom (s : String) : Except String Int :=
  let neg := strStartsWith s "-"
  let body := if neg then strDrop s 1 else s
  match parseDigits? body.data with
  | some n => .ok (if neg then -(n : Int) else (n : Int))
  | none => .error ("invalid BigNumber string value: " ++ s)

/-- Integer power of ten. -/
def pow10 (n : Nat) : Int := (10 : Int) ^ n

/-- Model of `ethers.utils.parseUnits` on decimal strings: an optional
leading minus sign, an integer part, and an optional fractional part of
at most `decimals` digits; the result is the value scaled by
`10 ^ decimals`. -/
def parseUnits (s : String) (decimals : Int) : Except String Int :=
  let neg := strStartsWith s "-"
  let body := if neg then strDrop s 1 else s
  let d := decimals.toNat
  match strSplit body '.' with
  | [whole] =>
    match parseDigits? whole.data with
    | some n => .ok ((if neg then -1 else 1) * (n : Int) * pow10 d)
    | none => .error ("invalid decimal value: " ++ s)
  | [whole, frac] =>
    match parseDigits? whole.data, parseDigits? frac.data with
    | some n, some f =>
      if d < frac.length then .error ("fractional component exceeds decimals: " ++ s)
      else .ok ((if neg then -1 else 1) * ((n : Int) * pow10 d + (f : Int) * pow10 (d - frac.length)))
    | _, _ => .error ("invalid decimal value: " ++ s)
  | _ => .error ("invalid decimal value: " ++ s)

/-- The normalized deployment parameters produced by `loadParams`. -/
structure DeployParams where
  name : String
  symbol : String
  currency : String
  decimals : Int
  minterAdmin : String
  pauser : String
  blocklister : String
  rescuer : String
  owner : String
  deriving DecidableEq, Repr

/-- The deployment record built by the `deploy:jpycv2` action and stored
by `persistDeployment`; the three trailing fields are added only by
`upgradeToV2`. -/
structure DeployRecord where
  network : String
  deployedAt : String
  deployer : String
  txHash : String
  proxy : String
  implementation : String
  params : DeployParams
  upgradeTxHash : Option String := none
  implementationV2 : Option String := none
  upgradedAt : Option String := none
  deriving DecidableEq, Repr

/-- The deployments directory: file name to the record the file holds
(JSON serialization modelled as the identity on records). -/
def FS : Type := String → Option DeployRecord

/-- The process environment: variable name to its value when set. -/
def Env : Type := String → Option String

/-- Point update of the file store, modelling `fs.writeFileSync`. -/
def writeFile (fs : FS) (fname : String) (r : DeployRecord) : FS :=
  fun f => if f = fname then some r else fs f

/-- A contract method invocation performed by a command handler. -/
structure Call where
  method : String
  args : List String
  deriving DecidableEq, Repr

/-- Shared body of `resolveContractAddress` from `tasks/actions.js` and
`tasks/admin.js` (the two copies differ only in the zero-address error
message, passed here as `zeroMsg`).  The source recurses on the value
drawn from the environment or the latest-deployment file; that value is
truthy at both call sites, so the recursive call is exactly the explicit
branch, inlined here as `validateAddress`. -/
def validateAddress (utils : EthUtils) (zeroMsg : String) (e : String) : Except String String :=
  if ¬ utils.isAddress e then .error ("Invalid contract address: " ++ e)
  else
    let checksummed := utils.getAddress e
    if strToLower checksummed = ZERO_ADDRESS then .error zeroMsg
    else .ok checksummed

/-- Resolution of the proxy contract address: explicit argument, then
`JPYC_PROXY` or `JPYC_CONTRACT_ADDRESS` from the environment, then the
`proxy` field of the per-network latest deployment file. -/
def resolveContractAddressWith (utils : EthUtils) (zeroMsg : String) (env : Env)
    (fs : FS) (networkName : String) (explicit : Option String) : Except String String :=
  if truthy explicit then validateAddress utils zeroMsg (explicit.getD "")
  else
    let fromEnv := jsOr (env "JPYC_PROXY") (env "JPYC_CONTRACT_ADDRESS")
    if truthy fromEnv then validateAddress utils zeroMsg (fromEnv.getD "")
    else
      match fs (networkName ++ "-latest.json") with
      | some parsed =>
        if parsed.proxy ≠ "" then validateAddress utils zeroMsg parsed.proxy
        else .error "Unable to determine proxy address. Provide --contract or set JPYC_PROXY."
      | none => .error "Unable to determine proxy address. Provide --contract or set JPYC_PROXY."

namespace Actions

/-- The `resolveContractAddress` function of `tasks/actions.js`. -/
def resolveContractAddress (utils : EthUtils) (env : Env) (fs : FS)
    (networkName : String) (explicit : Option String) : Except String String :=
  resolveContractAddressWith utils "Contract address must not be the zero address"
    env fs networkName explicit

/-- The `normalizeAddress` function of `tasks/actions.js`. -/
def normalizeAddress (utils : EthUtils) (value label : String) : Except String String :=
  if ¬ utils.isAddress value then .error ("Invalid " ++ label ++ " address: " ++ value)
  else
    let checksummed := utils.getAddress value
    if strToLower checksummed = ZERO_ADDRESS then .error (label ++ " address must not be zero")
    else .ok checksummed

/-- The `normalizeAmount` function of `tasks/actions.js`: with `raw` it
returns `BigNumber.from(amount)` directly; otherwise it validates the
decimals (defaulting to 18) and scales the amount with `parseUnits`. -/
def normalizeAmount (amount : String) (decimals : Option JsNum) (raw : Bool) :
    Except String Int :=
  if raw then bigNumberFrom amount
  else
    match decimals.getD (.int 18) with
    | .int n =>
      if n < 0 ∨ 255 < n then .error "decimals must be an integer between 0 and 255"
      else parseUnits amount n
    | .nonInt => .error "decimals must be an integer between 0 and 255"

/-- The `jpyc:mint` action: resolve the contract, normalize the
recipient and the amount, then invoke `mint`.  The result is the list of
contract invocations performed and the error thrown, if any. -/
def mintAction (utils : EthUtils) (env : Env) (fs : FS) (networkName : String)
    (contract : Option String) (toAddr amount : String) (decimals : Option JsNum)
    (raw : Bool) : List Call × Option String :=
  match resolveContractAddress utils env fs networkName contract with
  | .error e => ([], some e)
  | .ok _ =>
    match normalizeAddress utils toAddr "recipient" with
    | .error e => ([], some e)
    | .ok recipient =>
      match normalizeAmount amount decimals raw with
      | .error e => ([], some e)
      | .ok value => ([⟨"mint", [recipient, toString value]⟩], none)

/-- The `jpyc:transfer` action. -/
def transferAction (utils : EthUtils) (env : Env) (fs : FS) (networkName : String)
    (contract : Option String) (toAddr amount : String) (decimals : Option JsNum)
    (raw : Bool) : List Call × Option String :=
  match resolveContractAddress utils env fs networkName contract with
  | .error e => ([], some e)
  | .ok _ =>
    match normalizeAddress utils toAddr "recipient" with
    | .error e => ([], some e)
    | .ok recipient =>
      match normalizeAmount amount decimals raw with
      | .error e => ([], some e)
      | .ok value => ([⟨"transfer", [recipient, toString value]⟩], none)

/-- The `jpyc:burn` action. -/
def burnAction (utils : EthUtils) (env : Env) (fs : FS) (networkName : String)
    (contract : Option String) (amount : String) (decimals : Option JsNum)
    (raw : Bool) : List Call × Option String :=
  match resolveContractAddress utils env fs networkName contract with
  | .error e => ([], some e)
  | .ok _ =>
    match normalizeAmount amount decimals raw with
    | .error e => ([], some e)
    | .ok value => ([⟨"burn", [toString value]⟩], none)

end Actions

namespace Admin

/-- The `resolveContractAddress` function of `tasks/admin.js` (identical
to the actions version up to the zero-address error message). -/
def resolveContractAddress (utils : EthUtils) (env : Env) (fs : FS)
    (networkName : String) (explicit : Option String) : Except String String :=
  resolveContractAddressWith utils "Contract address must not be zero"
    env fs networkName explicit

/-- The `normalizeAddress` function of `tasks/admin.js`. -/
def normalizeAddress (utils : EthUtils) (value label : String) : Except String String :=
  if ¬ utils.isAddress value then .error ("Invalid " ++ label ++ " address: " ++ value)
  else
    let checksummed := utils.getAddress value
    if strToLower checksummed = ZERO_ADDRESS then .error (label ++ " address must not be zero")
    else .ok checksummed

/-- The `normalizeAmount` function of `tasks/admin.js`: parses the
amount with `BigNumber.from` and rejects negative values. -/
def normalizeAmount (amount : String) : Except String Int :=
  match bigNumberFrom amount with
  | .error e => .error e
  | .ok value =>
    if value < 0 then .error "Allowance amount must be non-negative"
    else .ok value

/-- The `jpyc:configure-minter` action. -/
def configureMinterAction (utils : EthUtils) (env : Env) (fs : FS) (networkName : String)
    (contract : Option String) (minter allowance : String) : List Call × Option String :=
  match resolveContractAddress utils env fs networkName contract with
  | .error e => ([], some e)
  | .ok _ =>
    match normalizeAddress utils minter "minter" with
    | .error e => ([], some e)
    | .ok minterAddress =>
      match normalizeAmount allowance with
      | .error e => ([], some e)
      | .ok amount => ([⟨"configureMinter", [minterAddress, toString amount]⟩], none)

/-- The `jpyc:remove-minter` action. -/
def removeMinterAction (utils : EthUtils) (env : Env) (fs : FS) (networkName : String)
    (contract : Option String) (minter : String) : List Call × Option String :=
  match resolveContractAddress utils env fs networkName contract with
  | .error e => ([], some e)
  | .ok _ =>
    match normalizeAddress utils minter "minter" with
    | .error e => ([], some e)
    | .ok minterAddress => ([⟨"removeMinter", [minterAddress]⟩], none)

/-- The role-to-method table of the `jpyc:update-roles` action: the own
properties of the `roleMap` object literal. -/
def roleMap (r : String) : Option String :=
  if r = "pauser" then some "updatePauser"
  else if r = "blocklister" then some "updateBlocklister"
  else if r = "rescuer" then some "updateRescuer"
  else if r = "allowlister" then some "updateAllowlister"
  else if r = "minteradmin" then some "updateMinterAdmin"
  else if r = "owner" then some "transferOwnership"
  else none

/-- Result of the JS property read `roleMap[normalizedRole]`: a mapped
method-name string (an own key), a truthy member inherited from
`Object.prototype`, or `undefined`. -/
inductive RoleLookup where
  | method (m : String)
  | inheritedMember
  | notFound
  deriving DecidableEq, Repr

/-- The JS property read `roleMap[normalizedRole]`.  The object literal
inherits `Object.prototype`, and the role has been lower-cased, so the
inherited keys reachable here are exactly `constructor` and
`__proto__`, both of which read back truthy non-string members. -/
def roleMapLookup (r : String) : RoleLookup :=
  match roleMap r with
  | some m => .method m
  | none =>
    if r = "constructor" ∨ r = "__proto__" then .inheritedMember
    else .notFound

/-- The `Object.keys(roleMap).join(', ')` string of the source. -/
def roleMapKeys : String :=
  "pauser, blocklister, rescuer, allowlister, minteradmin, owner"

/-- The `jpyc:update-roles` action: resolve the contract, normalize the
new address, trim and lower-case the role, and dispatch through the
property read `roleMap[normalizedRole]`.  An `undefined` read throws
the Unsupported-role error; a truthy member inherited from
`Object.prototype` skips that throw, and the indexed call
`token[method](newAddress)` then fails with a TypeError - in either
case no contract method is invoked. -/
def updateRolesAction (utils : EthUtils) (env : Env) (fs : FS) (networkName : String)
    (contract : Option String) (role address : String) : List Call × Option String :=
  match resolveContractAddress utils env fs networkName contract with
  | .error e => ([], some e)
  | .ok _ =>
    match normalizeAddress utils address "role" with
    | .error e => ([], some e)
    | .ok newAddress =>
      let normalizedRole := strToLower (strTrim role)
      match roleMapLookup normalizedRole with
      | .notFound => ([], some ("Unsupported role: " ++ role ++ ". Supported roles: " ++ roleMapKeys))
      | .method method => ([⟨method, [newAddress]⟩], none)
      | .inheritedMember => ([], some "TypeError: token[method] is not a function")

end Admin

namespace Deploy

/-- The `REQUIRED_FIELDS` list of `tasks/deploy.js`. -/
def REQUIRED_FIELDS : List String :=
  ["name", "symbol", "currency", "decimals", "minterAdmin", "pauser",
   "blocklister", "rescuer", "owner"]

/-- The `ENV_KEYS` table of `tasks/deploy.js`. -/
def envKeyOf : String → String
  | "name" => "TOKEN_NAME"
  | "symbol" => "TOKEN_SYMBOL"
  | "currency" => "TOKEN_CURRENCY"
  | "decimals" => "TOKEN_DECIMALS"
  | "minterAdmin" => "JPYC_MINTER_ADMIN"
  | "pauser" => "JPYC_PAUSER"
  | "blocklister" => "JPYC_BLOCKLISTER"
  | "rescuer" => "JPYC_RESCUER"
  | "owner" => "JPYC_OWNER"
  | _ => ""

/-- The raw parameter source an invocation resolves (the parsed params
file, or the object `readFromEnv` builds): each field is absent
(`undefined`/`null`) or carries the string conversion of its value. -/
structure ParamsSource where
  name : Option String := none
  symbol : Option String := none
  currency : Option String := none
  decimals : Option String := none
  minterAdmin : Option String := none
  pauser : Option String := none
  blocklister : Option String := none
  rescuer : Option String := none
  owner : Option String := none
  deriving DecidableEq, Repr

/-- Field lookup `source[field]` for the nine required field names. -/
def ParamsSource.get (src : ParamsSource) : String → Option String
  | "name" => src.name
  | "symbol" => src.symbol
  | "currency" => src.currency
  | "decimals" => src.decimals
  | "minterAdmin" => src.minterAdmin
  | "pauser" => src.pauser
  | "blocklister" => src.blocklister
  | "rescuer" => src.rescuer
  | "owner" => src.owner
  | _ => none

/-- The `readFromEnv` function of `tasks/deploy.js`: a field is present
exactly when its environment variable is defined. -/
def readFromEnv (env : Env) : ParamsSource where
  name := env "TOKEN_NAME"
  symbol := env "TOKEN_SYMBOL"
  currency := env "TOKEN_CURRENCY"
  decimals := env "TOKEN_DECIMALS"
  minterAdmin := env "JPYC_MINTER_ADMIN"
  pauser := env "JPYC_PAUSER"
  blocklister := env "JPYC_BLOCKLISTER"
  rescuer := env "JPYC_RESCUER"
  owner := env "JPYC_OWNER"

/-- A required-field value is missing: `undefined`, `null`, or blank
after string conversion and trimming. -/
def isMissingVal : Option String → Bool
  | none => true
  | some s => strTrim s = ""

/-- The errors `loadParams` can throw. -/
inductive LoadErr where
  | missing (field : String) (hint : String)
  | badDecimals
  | invalidAddress (key : String) (candidate : String)
  | zeroAddress (key : String)
  deriving DecidableEq, Repr

/-- Validation of one address-valued parameter in `loadParams`:
`String(normalized[key]).trim()` must be a valid non-zero address, which
is replaced by its checksummed form. -/
def checkAddr (utils : EthUtils) (key : String) (v : Option String) : Except LoadErr String :=
  let candidate := strTrim (v.getD "")
  if ¬ utils.isAddress candidate then .error (.invalidAddress key candidate)
  else
    let checksummed := utils.getAddress candidate
    if strToLower checksummed = ZERO_ADDRESS then .error (.zeroAddress key)
    else .ok checksummed

/-- The `loadParams` function of `tasks/deploy.js`.  `numberConv` is the
JS `Number(...)` conversion applied to the decimals value, delegated to
the runtime; `fromFile` selects the hint wording of the missing-field
error.  The first missing required field throws; then the decimals are
checked; then the five role addresses are validated in order; finally
the textual fields are trimmed. -/
def loadParams (utils : EthUtils) (numberConv : String → JsNum)
    (src : ParamsSource) (fromFile : Bool) : Except LoadErr DeployParams :=
  match REQUIRED_FIELDS.find? (fun f => isMissingVal (src.get f)) with
  | some f =>
    .error (.missing f
      (if fromFile then "params field \"" ++ f ++ "\"" else "env var " ++ envKeyOf f))
  | none =>
    match numberConv ((src.decimals).getD "") with
    | .nonInt => .error .badDecimals
    | .int n =>
      if n < 0 ∨ 255 < n then .error .badDecimals
      else
        match checkAddr utils "minterAdmin" src.minterAdmin with
        | .error e => .error e
        | .ok minterAdmin =>
          match checkAddr utils "pauser" src.pauser with
          | .error e => .error e
          | .ok pauser =>
            match checkAddr utils "blocklister" src.blocklister with
            | .error e => .error e
            | .ok blocklister =>
              match checkAddr utils "rescuer" src.rescuer with
              | .error e => .error e
              | .ok rescuer =>
                match checkAddr utils "owner" src.owner with
                | .error e => .error e
                | .ok owner =>
                  .ok
                    { name := strTrim (src.name.getD "")
                      symbol := strTrim (src.symbol.getD "")
                      currency := strTrim (src.currency.getD "")
                      decimals := n
                      minterAdmin := minterAdmin
                      pauser := pauser
                      blocklister := blocklister
                      rescuer := rescuer
                      owner := owner }

/-- The history file name `networkName-<timestamp>.json` written by
`persistDeployment` (every colon of the timestamp replaced by a dash). -/
def historyFileName (networkName : String) (record : DeployRecord) : String :=
  networkName ++ "-" ++ (strReplaceChar record.deployedAt ':' '-') ++ ".json"

/-- The latest-record file name `networkName-latest.json`. -/
def latestFileName (networkName : String) : String :=
  networkName ++ "-latest.json"

/-- The `persistDeployment` function of `tasks/deploy.js`: writes the
record to the history file, then to the latest file. -/
def persistDeployment (fs : FS) (networkName : String) (record : DeployRecord) : FS :=
  writeFile (writeFile fs (historyFileName networkName record) record)
    (latestFileName networkName) record

/-- An external-capability event emitted by the deploy orchestrator. -/
inductive Event where
  | deployProxy (factory : String) (args : List String) (kind : String)
  | upgradeProxy (factory : String) (callFn : String) (kind : String)
  | verifyImpl (address : String)
  deriving DecidableEq, Repr

/-- Outcomes of the external chain interactions the `deploy:jpycv2`
action performs (signers, proxy deployment, upgrade, timestamps): the
capability surface the orchestrator consumes. -/
structure Chain where
  networkName : String
  canChangeNetwork : Bool
  deployer : Option String
  proxyAddress : String
  implementationAddress : String
  txHash : String
  deployedAt : String
  implementationV2Address : String
  upgradeTxHash : Option String
  upgradedAt : String
  hasVerifyTask : Bool
  deriving Repr

/-- The errors the `deploy:jpycv2` action can throw before reaching the
chain (network switch, missing signer, parameter loading, params-file
read failure). -/
inductive DeployErr where
  | cannotSwitchNetwork (t : String)
  | noSigner
  | fileReadError
  | loadErr (e : LoadErr)
  deriving DecidableEq, Repr

/-- The `upgradeToV2` function of `tasks/deploy.js`: upgrades the proxy
to `FiatTokenV2` with an `initializeV2` call, records the upgrade data
in the record, optionally verifies, and persists the updated record. -/
def upgradeToV2 (chain : Chain) (networkName : String) (record : DeployRecord)
    (verify : Bool) (events : List Event) (fs : FS) :
    DeployRecord × List Event × FS :=
  let events := events ++ [.upgradeProxy "FiatTokenV2" "initializeV2" "uups"]
  let record :=
    { record with
      upgradeTxHash := chain.upgradeTxHash
      implementationV2 := some chain.implementationV2Address
      upgradedAt := some chain.upgradedAt }
  let events :=
    if verify && chain.hasVerifyTask then events ++ [.verifyImpl chain.implementationV2Address]
    else events
  (record, events, persistDeployment fs networkName record)

/-- The network-switch preamble of the `deploy:jpycv2` action: a truthy
positional network different from the current one requires the
`changeNetwork` capability. -/
def switchNetwork (chain : Chain) (targetNetwork : Option String) :
    Except DeployErr String :=
  if truthy targetNetwork && (targetNetwork.getD "" ≠ chain.networkName) then
    if chain.canChangeNetwork then .ok (targetNetwork.getD "")
    else .error (.cannotSwitchNetwork (targetNetwork.getD ""))
  else .ok chain.networkName

/-- The parameter source selected by the action: the parsed params file
when a path was given (`fileReadError` models a failing
`readConfigFile`), otherwise the environment. -/
def resolveSource (env : Env) (paramsFile : Option ParamsSource)
    (paramsPath : Option String) : Except DeployErr ParamsSource :=
  if truthy paramsPath then
    match paramsFile with
    | some src => .ok src
    | none => .error .fileReadError
  else .ok (readFromEnv env)

/-- The `deploy:jpycv2` action of `tasks/deploy.js`.  `paramsFile` is
the parsed content of the file named by `paramsPath` when that file is
readable; `numberConv` is the JS `Number(...)` conversion used by
`loadParams`.  On success it returns the final deployment record, the
chain interactions performed, and the updated deployments directory. -/
def deployAction (utils : EthUtils) (numberConv : String → JsNum) (chain : Chain)
    (env : Env) (paramsFile : Option ParamsSource) (targetNetwork : Option String)
    (paramsPath : Option String) (verify v1only : Bool) (fs : FS) :
    Except DeployErr (DeployRecord × List Event × FS) :=
  match switchNetwork chain targetNetwork with
  | .error e => .error e
  | .ok networkName =>
    match chain.deployer with
    | none => .error .noSigner
    | some deployer =>
      match resolveSource env paramsFile paramsPath with
      | .error e => .error e
      | .ok src =>
        match loadParams utils numberConv src (truthy paramsPath) with
        | .error e => .error (.loadErr e)
        | .ok params =>
          let deployArgs :=
            [params.name, params.symbol, params.currency, toString params.decimals,
             params.minterAdmin, params.pauser, params.blocklister, params.rescuer,
             params.owner]
          let events := [Event.deployProxy "FiatTokenV1" deployArgs "uups"]
          let record : DeployRecord :=
            { network := networkName
              deployedAt := chain.deployedAt
              deployer := deployer
              txHash := chain.txHash
              proxy := chain.proxyAddress
              implementation := chain.implementationAddress
              params := params }
          let fs := persistDeployment fs networkName record
          let events :=
            if verify && chain.hasVerifyTask then
              events ++ [.verifyImpl chain.implementationAddress]
            else events
          if v1only then .ok (record, events, fs)
          else .ok (upgradeToV2 chain networkName record verify events fs)

end Deploy

/-- Concrete JS `Number(...)` conversion used to evaluate the theorems:
integer strings convert to their value, everything else to a
non-integer. -/
def mockNumber (s : String) : JsNum :=
  match bigNumberFrom (strTrim s) with
  | .ok n => .int n
  | .error _ => .nonInt

/-- A concrete valid address used to evaluate the theorems. -/
def addrA : String := "0x1111111111111111111111111111111111111111"

/-- A second concrete valid address used to evaluate the theorems. -/
def addrB : String := "0x22E2b31Cbb14Ab0F4f4e04a17B6e0EA5E679E87c"

/-- The everywhere-undefined environment, for explicit evaluations. -/
def envEmpty : Env := fun _ => none

/-- The empty deployments directory, for explicit evaluations. -/
def fsEmpty : FS := fun _ => none

/-- Concrete deployment parameters, for explicit evaluations. -/
def sampleParams : DeployParams :=
  { name := "JPY Coin", symbol := "JPYC", currency := "JPY", decimals := 18,
    minterAdmin := addrA, pauser := addrA, blocklister := addrA,
    rescuer := addrA, owner := addrA }

/-- A concrete deployment record, for explicit evaluations. -/
def sampleRecord : DeployRecord :=
  { network := "hardhat", deployedAt := "2026-10-12T00:00:00.000Z",
    deployer := addrA, txHash := "0xaaa", proxy := addrB,
    implementation := addrA, params := sampleParams }

/-- C1: round trip of the deployment record store.  After
`persistDeployment(networkName, record)` with a valid non-zero proxy
address, `resolveContractAddress` with no explicit argument and with
neither `JPYC_PROXY` nor `JPYC_CONTRACT_ADDRESS` set returns the
checksummed form of `record.proxy` for that network. -/
theorem persist_resolve_roundtrip (utils : EthUtils) (env : Env) (fs : FS)
    (networkName : String) (record : DeployRecord)
    (henv1 : env "JPYC_PROXY" = none) (henv2 : env "JPYC_CONTRACT_ADDRESS" = none)
    (hne : record.proxy ≠ "")
    (hvalid : utils.isAddress record.proxy = true)
    (hzero : strToLower (utils.getAddress record.proxy) ≠ ZERO_ADDRESS) :
    Actions.resolveContractAddress utils env
      (Deploy.persistDeployment fs networkName record) networkName none =
      .ok (utils.getAddress record.proxy) := by
  simp [Actions.resolveContractAddress, resolveContractAddressWith, truthy, jsOr,
    henv1, henv2, Deploy.persistDeployment, Deploy.latestFileName, writeFile,
    validateAddress, hvalid, hne, hzero]

/-- Evaluation of `persist_resolve_roundtrip` on explicit inputs. -/
theorem persist_resolve_roundtrip_eval :
    Actions.resolveContractAddress mockEthUtils envEmpty
      (Deploy.persistDeployment fsEmpty "hardhat" sampleRecord) "hardhat" none =
      .ok "0x22e2b31cbb14ab0f4f4e04a17b6e0ea5e679e87c" :=
  (persist_resolve_roundtrip mockEthUtils envEmpty fsEmpty "hardhat" sampleRecord
    rfl rfl (by decide) (by decide) (by decide)).trans (by decide)

/-- A falsy environment lookup is either unset or the empty string. -/
theorem truthy_false_iff (o : Option String) : truthy o = false ↔ o = none ∨ o = some "" := by
  cases o with
  | none => simp [truthy]
  | some s => simp [truthy]

/-- C8: precedence of contract-address resolution: explicit argument,
then `JPYC_PROXY`, then `JPYC_CONTRACT_ADDRESS`, then the `proxy` field
of the per-network latest deployment file; with no source available the
resolver throws, and the source used is validated as a non-zero
checksummed address (`validateAddress`).  Stated for the shared body
`resolveContractAddressWith`; the last two conjuncts identify the
actions and admin resolvers as its instances. -/
theorem resolveContractAddress_precedence (utils : EthUtils) (zeroMsg : String)
    (env : Env) (fs : FS) (networkName : String) (explicit : Option String) :
    (∀ e, explicit = some e → e ≠ "" →
      resolveContractAddressWith utils zeroMsg env fs networkName explicit =
        validateAddress utils zeroMsg e) ∧
    (truthy explicit = false →
      ∀ v, env "JPYC_PROXY" = some v → v ≠ "" →
        resolveContractAddressWith utils zeroMsg env fs networkName explicit =
          validateAddress utils zeroMsg v) ∧
    (truthy explicit = false → truthy (env "JPYC_PROXY") = false →
      ∀ v, env "JPYC_CONTRACT_ADDRESS" = some v → v ≠ "" →
        resolveContractAddressWith utils zeroMsg env fs networkName explicit =
          validateAddress utils zeroMsg v) ∧
    (truthy explicit = false → truthy (env "JPYC_PROXY") = false →
      truthy (env "JPYC_CONTRACT_ADDRESS") = false →
      (∀ r, fs (networkName ++ "-latest.json") = some r → r.proxy ≠ "" →
        resolveContractAddressWith utils zeroMsg env fs networkName explicit =
          validateAddress utils zeroMsg r.proxy) ∧
      ((fs (networkName ++ "-latest.json") = none ∨
        (∃ r, fs (networkName ++ "-latest.json") = some r ∧ r.proxy = "")) →
        resolveContractAddressWith utils zeroMsg env fs networkName explicit =
          .error "Unable to determine proxy address. Provide --contract or set JPYC_PROXY.")) ∧
    (∀ s,
      (utils.isAddress s = false →
        validateAddress utils zeroMsg s = .error ("Invalid contract address: " ++ s)) ∧
      (utils.isAddress s = true → strToLower (utils.getAddress s) = ZERO_ADDRESS →
        validateAddress utils zeroMsg s = .error zeroMsg) ∧
      (utils.isAddress s = true → strToLower (utils.getAddress s) ≠ ZERO_ADDRESS →
        validateAddress utils zeroMsg s = .ok (utils.getAddress s))) ∧
    Actions.resolveContractAddress utils env fs networkName explicit =
      resolveContractAddressWith utils "Contract address must not be the zero address"
        env fs networkName explicit ∧
    Admin.resolveContractAddress utils env fs networkName explicit =
      resolveContractAddressWith utils "Contract address must not be zero"
        env fs networkName explicit := by
  refine ⟨?_, ?_, ?_, ?_, ?_, rfl, rfl⟩
  · intro e he hne
    subst he
    simp only [resolveContractAddressWith]
    simp [truthy, hne]
  · intro hex v hv hvne
    simp only [resolveContractAddressWith, hex, jsOr, hv]
    simp [truthy, hvne]
  · intro hex hp v hv hvne
    simp only [resolveContractAddressWith, hex, jsOr, hp, hv]
    simp [truthy, hvne]
  · intro hex hp hc
    have hp' := (truthy_false_iff _).mp hp
    have hc' := (truthy_false_iff _).mp hc
    constructor
    · intro r hr hrne
      rcases hp' with h1 | h1 <;> rcases hc' with h2 | h2 <;>
        (simp only [resolveContractAddressWith, hex, jsOr, h1, h2, hr];
         simp [truthy, hrne])
    · rintro (hnone | ⟨r, hr, hrp⟩)
      · rcases hp' with h1 | h1 <;> rcases hc' with h2 | h2 <;>
          (simp only [resolveContractAddressWith, hex, jsOr, h1, h2, hnone];
           simp [truthy])
      · rcases hp' with h1 | h1 <;> rcases hc' with h2 | h2 <;>
          (simp only [resolveContractAddressWith, hex, jsOr, h1, h2, hr, hrp];
           simp [truthy])
  · intro s
    refine ⟨fun h => ?_, fun h hz => ?_, fun h hz => ?_⟩
    · simp [validateAddress, h]
    · simp [validateAddress, h, hz]
    · simp [validateAddress, h, hz]

/-- An environment with only `JPYC_PROXY` set, for explicit
evaluations. -/
def envProxyOnly : Env := fun k => if k = "JPYC_PROXY" then some addrB else none

/-- A deployments directory holding only a hardhat latest record, for
explicit evaluations. -/
def fsLatestOnly : FS :=
  fun f => if f = "hardhat-latest.json" then some sampleRecord else none

/-- Evaluation of `resolveContractAddress_precedence` on explicit
inputs, one per precedence level. -/
theorem resolveContractAddress_precedence_eval :
    Actions.resolveContractAddress mockEthUtils envProxyOnly fsLatestOnly "hardhat"
      (some addrA) = .ok addrA ∧
    Actions.resolveContractAddress mockEthUtils envProxyOnly fsLatestOnly "hardhat"
      none = .ok "0x22e2b31cbb14ab0f4f4e04a17b6e0ea5e679e87c" ∧
    Actions.resolveContractAddress mockEthUtils envEmpty fsLatestOnly "hardhat"
      none = .ok "0x22e2b31cbb14ab0f4f4e04a17b6e0ea5e679e87c" ∧
    Actions.resolveContractAddress mockEthUtils envEmpty fsEmpty "hardhat" none =
      .error "Unable to determine proxy address. Provide --contract or set JPYC_PROXY." := by
  refine ⟨?_, ?_, ?_, ?_⟩
  · exact ((resolveContractAddress_precedence mockEthUtils
      "Contract address must not be the zero address" envProxyOnly fsLatestOnly
      "hardhat" (some addrA)).1 addrA rfl (by decide)).trans (by decide)
  · exact ((resolveContractAddress_precedence mockEthUtils
      "Contract address must not be the zero address" envProxyOnly fsLatestOnly
      "hardhat" none).2.1 rfl addrB rfl (by decide)).trans (by decide)
  · exact (((resolveContractAddress_precedence mockEthUtils
      "Contract address must not be the zero address" envEmpty fsLatestOnly
      "hardhat" none).2.2.2.1 rfl rfl rfl).1 sampleRecord (by decide)
      (by decide)).trans (by decide)
  · exact ((resolveContractAddress_precedence mockEthUtils
      "Contract address must not be the zero address" envEmpty fsEmpty
      "hardhat" none).2.2.2.1 rfl rfl rfl).2 (Or.inl rfl)

/-- C5 counterexample: `roleMap` is an object literal and inherits
`Object.prototype`, so for the role `constructor` - outside the
six-entry mapping - the property read `roleMap[normalizedRole]` is
truthy, the source skips the Unsupported-role throw, and the indexed
call `token[method]` fails with a TypeError; no Unsupported-role error
is thrown. -/
theorem updateRoles_constructor_counterexample :
    Admin.roleMap "constructor" = none ∧
    Admin.updateRolesAction mockEthUtils envEmpty fsLatestOnly "hardhat" (some addrA)
      "constructor" addrB =
      ([], some "TypeError: token[method] is not a function") ∧
    (Admin.updateRolesAction mockEthUtils envEmpty fsLatestOnly "hardhat" (some addrA)
      "constructor" addrB).2 ≠
      some ("Unsupported role: constructor. Supported roles: " ++ Admin.roleMapKeys) :=
  ⟨by decide, by decide, by decide⟩

/-- C5 (amended): once address resolution and normalization have
succeeded, the `jpyc:update-roles` task dispatches the trimmed
lower-cased role through the fixed six-entry role table and performs
exactly that one contract call; a role outside the table throws the
Unsupported-role error with no contract call unless its normalized form
is an `Object.prototype`-inherited key (`constructor` or `__proto__`),
for which the inherited truthy lookup skips that throw and the indexed
call fails with a TypeError - still with no contract call. -/
theorem updateRoles_spec (utils : EthUtils) (env : Env) (fs : FS)
    (networkName : String) (contract : Option String) (role address addr newAddr : String)
    (hres : Admin.resolveContractAddress utils env fs networkName contract = .ok addr)
    (hnorm : Admin.normalizeAddress utils address "role" = .ok newAddr) :
    (Admin.roleMap "pauser" = some "updatePauser" ∧
     Admin.roleMap "blocklister" = some "updateBlocklister" ∧
     Admin.roleMap "rescuer" = some "updateRescuer" ∧
     Admin.roleMap "allowlister" = some "updateAllowlister" ∧
     Admin.roleMap "minteradmin" = some "updateMinterAdmin" ∧
     Admin.roleMap "owner" = some "transferOwnership") ∧
    (∀ r, r ∉ (["pauser", "blocklister", "rescuer", "allowlister", "minteradmin",
        "owner"] : List String) → Admin.roleMap r = none) ∧
    (∀ m, Admin.roleMap (strToLower (strTrim role)) = some m →
      Admin.updateRolesAction utils env fs networkName contract role address =
        ([⟨m, [newAddr]⟩], none)) ∧
    (Admin.roleMap (strToLower (strTrim role)) = none →
      strToLower (strTrim role) ≠ "constructor" →
      strToLower (strTrim role) ≠ "__proto__" →
      Admin.updateRolesAction utils env fs networkName contract role address =
        ([], some ("Unsupported role: " ++ role ++ ". Supported roles: " ++
          Admin.roleMapKeys))) ∧
    (Admin.roleMap (strToLower (strTrim role)) = none →
      (strToLower (strTrim role) = "constructor" ∨
        strToLower (strTrim role) = "__proto__") →
      Admin.updateRolesAction utils env fs networkName contract role address =
        ([], some "TypeError: token[method] is not a function")) := by
  refine ⟨⟨by decide, by decide, by decide, by decide, by decide, by decide⟩,
    ?_, ?_, ?_, ?_⟩
  · intro r hr
    simp only [List.mem_cons, List.not_mem_nil, or_false, not_or] at hr
    obtain ⟨h1, h2, h3, h4, h5, h6⟩ := hr
    simp [Admin.roleMap, h1, h2, h3, h4, h5, h6]
  · intro m hm
    simp [Admin.updateRolesAction, hres, hnorm, Admin.roleMapLookup, hm]
  · intro hm h1 h2
    simp [Admin.updateRolesAction, hres, hnorm, Admin.roleMapLookup, hm, h1, h2]
  · intro hm hor
    rcases hor with h | h <;>
      simp [Admin.updateRolesAction, hres, hnorm, Admin.roleMapLookup, Admin.roleMap,
        hm, h]

/-- Evaluation of `updateRoles_spec` on explicit inputs: a supported
role (with surrounding blanks and mixed case), an unsupported one, and
an inherited key. -/
theorem updateRoles_spec_eval :
    Admin.updateRolesAction mockEthUtils envEmpty fsLatestOnly "hardhat" (some addrA)
      " Pauser " addrB =
      ([⟨"updatePauser", ["0x22e2b31cbb14ab0f4f4e04a17b6e0ea5e679e87c"]⟩], none) ∧
    Admin.updateRolesAction mockEthUtils envEmpty fsLatestOnly "hardhat" (some addrA)
      "admin" addrB =
      ([], some ("Unsupported role: admin. Supported roles: pauser, blocklister, rescuer, allowlister, minteradmin, owner")) ∧
    Admin.updateRolesAction mockEthUtils envEmpty fsLatestOnly "hardhat" (some addrA)
      "__proto__" addrB =
      ([], some "TypeError: token[method] is not a function") := by
  refine ⟨?_, ?_, ?_⟩
  · exact ((updateRoles_spec mockEthUtils envEmpty fsLatestOnly "hardhat" (some addrA)
      " Pauser " addrB addrA "0x22e2b31cbb14ab0f4f4e04a17b6e0ea5e679e87c"
      (by decide) (by decide)).2.2.1 "updatePauser" (by decide)).trans (by decide)
  · exact ((updateRoles_spec mockEthUtils envEmpty fsLatestOnly "hardhat" (some addrA)
      "admin" addrB addrA "0x22e2b31cbb14ab0f4f4e04a17b6e0ea5e679e87c"
      (by decide) (by decide)).2.2.2.1 (by decide) (by decide) (by decide)).trans
      (by decide)
  · exact (updateRoles_spec mockEthUtils envEmpty fsLatestOnly "hardhat" (some addrA)
      "__proto__" addrB addrA "0x22e2b31cbb14ab0f4f4e04a17b6e0ea5e679e87c"
      (by decide) (by decide)).2.2.2.2 (by decide) (Or.inr (by decide))

/-- C3: for every input and label, `normalizeAddress` (in both
`tasks/actions.js` and `tasks/admin.js`) returns the checksummed
canonical form of a valid non-zero address, and throws when the input is
invalid or its checksummed form is the zero address.  The hypothesis
`hcanon` records the EIP-55 property of the external checksum that the
zero address is the only checksummed output whose lower-casing is the
zero address. -/
theorem normalizeAddress_spec (utils : EthUtils) (value label : String)
    (hcanon : strToLower (utils.getAddress value) = ZERO_ADDRESS ↔
      utils.getAddress value = ZERO_ADDRESS) :
    (utils.isAddress value = true → utils.getAddress value ≠ ZERO_ADDRESS →
      Actions.normalizeAddress utils value label = .ok (utils.getAddress value) ∧
      Admin.normalizeAddress utils value label = .ok (utils.getAddress value)) ∧
    (utils.isAddress value = false →
      Actions.normalizeAddress utils value label =
        .error ("Invalid " ++ label ++ " address: " ++ value) ∧
      Admin.normalizeAddress utils value label =
        .error ("Invalid " ++ label ++ " address: " ++ value)) ∧
    (utils.isAddress value = true → utils.getAddress value = ZERO_ADDRESS →
      Actions.normalizeAddress utils value label =
        .error (label ++ " address must not be zero") ∧
      Admin.normalizeAddress utils value label =
        .error (label ++ " address must not be zero")) := by
  refine ⟨fun hv hz => ?_, fun hv => ?_, fun hv hz => ?_⟩
  · simp [Actions.normalizeAddress, Admin.normalizeAddress, hv, hcanon, hz]
  · simp [Actions.normalizeAddress, Admin.normalizeAddress, hv]
  · have hlow : strToLower (utils.getAddress value) = ZERO_ADDRESS := hcanon.mpr hz
    simp [Actions.normalizeAddress, Admin.normalizeAddress, hv, hlow]

/-- Evaluation of `normalizeAddress_spec` on explicit inputs. -/
theorem normalizeAddress_spec_eval :
    Actions.normalizeAddress mockEthUtils addrB "recipient" =
      .ok "0x22e2b31cbb14ab0f4f4e04a17b6e0ea5e679e87c" ∧
    Admin.normalizeAddress mockEthUtils "nonsense" "minter" =
      .error "Invalid minter address: nonsense" ∧
    Actions.normalizeAddress mockEthUtils ZERO_ADDRESS "recipient" =
      .error "recipient address must not be zero" :=
  ⟨((normalizeAddress_spec mockEthUtils addrB "recipient" (by decide)).1
      (by decide) (by decide)).1,
   ((normalizeAddress_spec mockEthUtils "nonsense" "minter" (by decide)).2.1
      (by decide)).2,
   ((normalizeAddress_spec mockEthUtils ZERO_ADDRESS "recipient" (by decide)).2.2
      (by decide) (by decide)).1⟩

/-- C7 counterexample: the mint command performs no negativity check on
amounts.  With the raw flag, `normalizeAmount` of `tasks/actions.js`
returns the negative value `-5` unchanged, and `jpyc:mint` passes it to
the contract `mint` method. -/
theorem mint_negative_amount_reaches_contract :
    Actions.normalizeAmount "-5" (some (.int 18)) true = .ok (-5) ∧
    ((-5 : Int) < 0) ∧
    (Actions.mintAction mockEthUtils (fun _ => none) (fun _ => none) "hardhat"
        (some addrA) addrA "-5" (some (.int 18)) true) =
      ([⟨"mint", [addrA, "-5"]⟩], none) := by
  refine ⟨by decide, by decide, ?_⟩
  decide

/-- C7 (amended): only the configure-minter normalization
(`tasks/admin.js` `normalizeAmount`) rejects negative amounts; the
`tasks/actions.js` `normalizeAmount` used by mint, transfer and burn
returns any amount `BigNumber.from` accepts - negative ones included -
unchanged on the raw path. -/
theorem normalizeAmount_negativity_split (s : String) (n : Int) (d : Option JsNum)
    (h : bigNumberFrom s = .ok n) :
    (n < 0 → Admin.normalizeAmount s = .error "Allowance amount must be non-negative") ∧
    (0 ≤ n → Admin.normalizeAmount s = .ok n) ∧
    Actions.normalizeAmount s d true = .ok n := by
  refine ⟨fun hn => ?_, fun hn => ?_, ?_⟩ <;>
    simp [Admin.normalizeAmount, Actions.normalizeAmount, h] <;> omega

/-- Evaluation of `normalizeAmount_negativity_split` on explicit
inputs. -/
theorem normalizeAmount_negativity_split_eval :
    Admin.normalizeAmount "-5" = .error "Allowance amount must be non-negative" ∧
    Admin.normalizeAmount "7" = .ok 7 ∧
    Actions.normalizeAmount "-5" none true = .ok (-5) :=
  ⟨(normalizeAmount_negativity_split "-5" (-5) none (by decide)).1 (by decide),
   (normalizeAmount_negativity_split "7" 7 none (by decide)).2.1 (by decide),
   (normalizeAmount_negativity_split "-5" (-5) none (by decide)).2.2⟩

/-- C10: the decimals limit is enforced only on the non-raw path.  The
raw branch of the actions `normalizeAmount` is exactly
`BigNumber.from(amount)` with no decimals validation; the non-raw branch
and `loadParams` throw for every decimals value that is not an integer
within `[0, 255]`, and the non-raw branch scales through `parseUnits`
when the decimals are in range. -/
theorem decimals_validation_spec :
    (∀ (amount : String) (d : Option JsNum),
      Actions.normalizeAmount amount d true = bigNumberFrom amount) ∧
    (∀ (amount : String) (d : JsNum), ¬ d.intInRange →
      Actions.normalizeAmount amount (some d) false =
        .error "decimals must be an integer between 0 and 255") ∧
    (∀ (amount : String) (n : Int), 0 ≤ n → n ≤ 255 →
      Actions.normalizeAmount amount (some (.int n)) false = parseUnits amount n) ∧
    (∀ (utils : EthUtils) (numberConv : String → JsNum) (src : Deploy.ParamsSource)
      (fromFile : Bool),
      (∀ f ∈ Deploy.REQUIRED_FIELDS, Deploy.isMissingVal (src.get f) = false) →
      ¬ (numberConv ((src.decimals).getD "")).intInRange →
      Deploy.loadParams utils numberConv src fromFile = .error .badDecimals) := by
  refine ⟨fun amount d => rfl, fun amount d hd => ?_, fun amount n h0 h255 => ?_,
    fun utils numberConv src fromFile hfields hd => ?_⟩
  · cases d with
    | int n =>
      simp [JsNum.intInRange] at hd
      simp [Actions.normalizeAmount]
      omega
    | nonInt => simp [Actions.normalizeAmount]
  · simp [Actions.normalizeAmount]
    omega
  · have hfind : Deploy.REQUIRED_FIELDS.find?
        (fun f => Deploy.isMissingVal (src.get f)) = none := by
      rw [List.find?_eq_none]
      intro f hf
      simp [hfields f hf]
    cases hnum : numberConv ((src.decimals).getD "") with
    | int n =>
      rw [hnum] at hd
      simp [JsNum.intInRange] at hd
      simp [Deploy.loadParams, hfind, hnum]
      omega
    | nonInt => simp [Deploy.loadParams, hfind, hnum]

/-- Evaluation of `decimals_validation_spec` on explicit inputs. -/
theorem decimals_validation_spec_eval :
    Actions.normalizeAmount "12" (some .nonInt) false =
      .error "decimals must be an integer between 0 and 255" ∧
    Actions.normalizeAmount "12" (some (.int 300)) false =
      .error "decimals must be an integer between 0 and 255" ∧
    Actions.normalizeAmount "12" (some (.int 2)) false = parseUnits "12" 2 ∧
    Deploy.loadParams mockEthUtils mockNumber
      { name := some "JPY Coin", symbol := some "JPYC", currency := some "JPY",
        decimals := some "300", minterAdmin := some addrA, pauser := some addrA,
        blocklister := some addrA, rescuer := some addrA, owner := some addrA }
      false = .error .badDecimals :=
  ⟨decimals_validation_spec.2.1 "12" .nonInt (by decide),
   decimals_validation_spec.2.1 "12" (.int 300) (by decide),
   decimals_validation_spec.2.2.1 "12" 2 (by decide) (by decide),
   decimals_validation_spec.2.2.2 mockEthUtils mockNumber _ false (by decide) (by decide)⟩

/-- C6: in every command handler, contract-address resolution and input
normalization strictly precede the contract call: if any of them throws,
the handler performs no contract method invocation. -/
theorem handlers_no_call_on_error (utils : EthUtils) (env : Env) (fs : FS)
    (networkName : String) (contract : Option String) (toAddr amount : String)
    (decimals : Option JsNum) (raw : Bool) (minter allowance role address : String) :
    ((Actions.resolveContractAddress utils env fs networkName contract).isOk = false ∨
      (Actions.normalizeAddress utils toAddr "recipient").isOk = false ∨
      (Actions.normalizeAmount amount decimals raw).isOk = false →
      (Actions.mintAction utils env fs networkName contract toAddr amount decimals raw).1 = []) ∧
    ((Actions.resolveContractAddress utils env fs networkName contract).isOk = false ∨
      (Actions.normalizeAddress utils toAddr "recipient").isOk = false ∨
      (Actions.normalizeAmount amount decimals raw).isOk = false →
      (Actions.transferAction utils env fs networkName contract toAddr amount decimals raw).1 = []) ∧
    ((Actions.resolveContractAddress utils env fs networkName contract).isOk = false ∨
      (Actions.normalizeAmount amount decimals raw).isOk = false →
      (Actions.burnAction utils env fs networkName contract amount decimals raw).1 = []) ∧
    ((Admin.resolveContractAddress utils env fs networkName contract).isOk = false ∨
      (Admin.normalizeAddress utils minter "minter").isOk = false ∨
      (Admin.normalizeAmount allowance).isOk = false →
      (Admin.configureMinterAction utils env fs networkName contract minter allowance).1 = []) ∧
    ((Admin.resolveContractAddress utils env fs networkName contract).isOk = false ∨
      (Admin.normalizeAddress utils minter "minter").isOk = false →
      (Admin.removeMinterAction utils env fs networkName contract minter).1 = []) ∧
    ((Admin.resolveContractAddress utils env fs networkName contract).isOk = false ∨
      (Admin.normalizeAddress utils address "role").isOk = false →
      (Admin.updateRolesAction utils env fs networkName contract role address).1 = []) := by
  refine ⟨?_, ?_, ?_, ?_, ?_, ?_⟩
  · intro h
    rcases hr : Actions.resolveContractAddress utils env fs networkName contract with e | a
    · simp [Actions.mintAction, hr]
    · rcases hn : Actions.normalizeAddress utils toAddr "recipient" with e | r
      · simp [Actions.mintAction, hr, hn]
      · rcases hm : Actions.normalizeAmount amount decimals raw with e | v
        · simp [Actions.mintAction, hr, hn, hm]
        · exfalso
          rcases h with h | h | h <;> simp [hr, hn, hm, Except.isOk, Except.toBool] at h
  · intro h
    rcases hr : Actions.resolveContractAddress utils env fs networkName contract with e | a
    · simp [Actions.transferAction, hr]
    · rcases hn : Actions.normalizeAddress utils toAddr "recipient" with e | r
      · simp [Actions.transferAction, hr, hn]
      · rcases hm : Actions.normalizeAmount amount decimals raw with e | v
        · simp [Actions.transferAction, hr, hn, hm]
        · exfalso
          rcases h with h | h | h <;> simp [hr, hn, hm, Except.isOk, Except.toBool] at h
  · intro h
    rcases hr : Actions.resolveContractAddress utils env fs networkName contract with e | a
    · simp [Actions.burnAction, hr]
    · rcases hm : Actions.normalizeAmount amount decimals raw with e | v
      · simp [Actions.burnAction, hr, hm]
      · exfalso
        rcases h with h | h <;> simp [hr, hm, Except.isOk, Except.toBool] at h
  · intro h
    rcases hr : Admin.resolveContractAddress utils env fs networkName contract with e | a
    · simp [Admin.configureMinterAction, hr]
    · rcases hn : Admin.normalizeAddress utils minter "minter" with e | r
      · simp [Admin.configureMinterAction, hr, hn]
      · rcases hm : Admin.normalizeAmount allowance with e | v
        · simp [Admin.configureMinterAction, hr, hn, hm]
        · exfalso
          rcases h with h | h | h <;> simp [hr, hn, hm, Except.isOk, Except.toBool] at h
  · intro h
    rcases hr : Admin.resolveContractAddress utils env fs networkName contract with e | a
    · simp [Admin.removeMinterAction, hr]
    · rcases hn : Admin.normalizeAddress utils minter "minter" with e | r
      · simp [Admin.removeMinterAction, hr, hn]
      · exfalso
        rcases h with h | h <;> simp [hr, hn, Except.isOk, Except.toBool] at h
  · intro h
    rcases hr : Admin.resolveContractAddress utils env fs networkName contract with e | a
    · simp [Admin.updateRolesAction, hr]
    · rcases hn : Admin.normalizeAddress utils address "role" with e | r
      · simp [Admin.updateRolesAction, hr, hn]
      · exfalso
        rcases h with h | h <;> simp [hr, hn, Except.isOk, Except.toBool] at h

/-- Evaluation of `handlers_no_call_on_error` on explicit inputs: an
invalid recipient and an unresolvable contract address both leave the
call list empty. -/
theorem handlers_no_call_on_error_eval :
    (Actions.mintAction mockEthUtils envEmpty fsLatestOnly "hardhat" (some addrA)
      "nonsense" "5" (some (.int 18)) false).1 = [] ∧
    (Admin.configureMinterAction mockEthUtils envEmpty fsEmpty "hardhat" none
      addrA "5").1 = [] :=
  ⟨(handlers_no_call_on_error mockEthUtils envEmpty fsLatestOnly "hardhat" (some addrA)
      "nonsense" "5" (some (.int 18)) false addrA "5" "pauser" addrA).1
      (Or.inr (Or.inl (by decide))),
   (handlers_no_call_on_error mockEthUtils envEmpty fsEmpty "hardhat" none
      addrA "5" (some (.int 18)) false addrA "5" "pauser" addrA).2.2.2.1
      (Or.inl (by decide))⟩

/-- An error thrown by `checkAddr` is an invalid-address or zero-address
error, never a missing-field error. -/
theorem checkAddr_error_shape (utils : EthUtils) (k : String) (v : Option String)
    (e : Deploy.LoadErr) (h : Deploy.checkAddr utils k v = .error e) :
    (∃ c, e = .invalidAddress k c) ∨ e = .zeroAddress k := by
  unfold Deploy.checkAddr at h
  dsimp only at h
  split at h
  · exact Or.inl ⟨_, (Except.error.inj h).symm⟩
  · split at h
    · exact Or.inr (Except.error.inj h).symm
    · exact absurd h (by simp)

/-- C4: `loadParams` throws a missing-field error exactly when one of
the nine required fields is undefined, null, or blank after string
conversion and trimming in the resolved parameter source, for the file
source and the environment source alike. -/
theorem loadParams_missing_iff (utils : EthUtils) (numberConv : String → JsNum)
    (src : Deploy.ParamsSource) (fromFile : Bool) :
    (∃ f ∈ Deploy.REQUIRED_FIELDS, Deploy.isMissingVal (src.get f) = true) ↔
    (∃ f hint, Deploy.loadParams utils numberConv src fromFile =
      .error (.missing f hint)) := by
  constructor
  · rintro ⟨f, hf, hmiss⟩
    rcases hfind : Deploy.REQUIRED_FIELDS.find?
        (fun f => Deploy.isMissingVal (src.get f)) with _ | g
    · exact absurd hmiss (by simpa using List.find?_eq_none.mp hfind f hf)
    · exact ⟨g, (if fromFile = true then "params field \"" ++ g ++ "\""
        else "env var " ++ Deploy.envKeyOf g), by simp [Deploy.loadParams, hfind]⟩
  · rintro ⟨f, hint, heq⟩
    by_contra hno
    push_neg at hno
    have hfind : Deploy.REQUIRED_FIELDS.find?
        (fun f => Deploy.isMissingVal (src.get f)) = none := by
      rw [List.find?_eq_none]
      intro g hg
      simpa using hno g hg
    rw [Deploy.loadParams, hfind] at heq
    rcases hnum : numberConv ((src.decimals).getD "") with n | _
    · rw [hnum] at heq
      by_cases hrange : n < 0 ∨ 255 < n
      · simp only [if_pos hrange] at heq
        exact Deploy.LoadErr.noConfusion (Except.error.inj heq)
      · simp only [if_neg hrange] at heq
        rcases h1 : Deploy.checkAddr utils "minterAdmin" src.minterAdmin with e1 | a1
        · rw [h1] at heq
          rcases checkAddr_error_shape _ _ _ _ h1 with ⟨c, hc⟩ | hc <;>
            { subst hc; exact Deploy.LoadErr.noConfusion (Except.error.inj heq) }
        · rw [h1] at heq
          rcases h2 : Deploy.checkAddr utils "pauser" src.pauser with e2 | a2
          · rw [h2] at heq
            rcases checkAddr_error_shape _ _ _ _ h2 with ⟨c, hc⟩ | hc <;>
              { subst hc; exact Deploy.LoadErr.noConfusion (Except.error.inj heq) }
          · rw [h2] at heq
            rcases h3 : Deploy.checkAddr utils "blocklister" src.blocklister with e3 | a3
            · rw [h3] at heq
              rcases checkAddr_error_shape _ _ _ _ h3 with ⟨c, hc⟩ | hc <;>
                { subst hc; exact Deploy.LoadErr.noConfusion (Except.error.inj heq) }
            · rw [h3] at heq
              rcases h4 : Deploy.checkAddr utils "rescuer" src.rescuer with e4 | a4
              · rw [h4] at heq
                rcases checkAddr_error_shape _ _ _ _ h4 with ⟨c, hc⟩ | hc <;>
                  { subst hc; exact Deploy.LoadErr.noConfusion (Except.error.inj heq) }
              · rw [h4] at heq
                rcases h5 : Deploy.checkAddr utils "owner" src.owner with e5 | a5
                · rw [h5] at heq
                  rcases checkAddr_error_shape _ _ _ _ h5 with ⟨c, hc⟩ | hc <;>
                    { subst hc; exact Deploy.LoadErr.noConfusion (Except.error.inj heq) }
                · rw [h5] at heq
                  exact Except.noConfusion heq
    · rw [hnum] at heq
      exact Deploy.LoadErr.noConfusion (Except.error.inj heq)

/-- String append is cancellable on the right. -/
theorem string_append_right_cancel {a b s : String} (h : a ++ s = b ++ s) : a = b := by
  have hd : a.data ++ s.data = b.data ++ s.data := congrArg String.data h
  exact String.ext (List.append_cancel_right hd)

/-- C9: `persistDeployment` stores the record under both the
timestamped history name and the latest name, changes no other file,
and in particular leaves the latest record of every other network
untouched.  The hypothesis `hsep` is the naming-separation fact that no
other network's latest file shares the history file's name (true of the
ISO timestamps the deploy action uses, whose dash-normalised form never
ends in `-latest`). -/
theorem persistDeployment_spec (fs : FS) (networkName : String) (record : DeployRecord)
    (hsep : ∀ n', n' ≠ networkName →
      Deploy.latestFileName n' ≠ Deploy.historyFileName networkName record) :
    Deploy.persistDeployment fs networkName record
      (Deploy.historyFileName networkName record) = some record ∧
    Deploy.persistDeployment fs networkName record
      (Deploy.latestFileName networkName) = some record ∧
    (∀ f, f ≠ Deploy.historyFileName networkName record →
      f ≠ Deploy.latestFileName networkName →
      Deploy.persistDeployment fs networkName record f = fs f) ∧
    (∀ n', n' ≠ networkName →
      Deploy.persistDeployment fs networkName record (Deploy.latestFileName n') =
        fs (Deploy.latestFileName n')) := by
  refine ⟨?_, ?_, ?_, ?_⟩
  · unfold Deploy.persistDeployment writeFile
    by_cases h : Deploy.historyFileName networkName record =
        Deploy.latestFileName networkName <;> simp [h]
  · simp [Deploy.persistDeployment, writeFile]
  · intro f hf1 hf2
    simp [Deploy.persistDeployment, writeFile, hf1, hf2]
  · intro n' hn'
    have h1 : Deploy.latestFileName n' ≠ Deploy.historyFileName networkName record :=
      hsep n' hn'
    have h2 : Deploy.latestFileName n' ≠ Deploy.latestFileName networkName :=
      fun he => hn' (string_append_right_cancel he)
    simp [Deploy.persistDeployment, writeFile, h1, h2]

/-- Evaluation of `persistDeployment_spec` on explicit inputs: both
files of the deploying network hold the record and another network's
latest file is untouched. -/
theorem persistDeployment_spec_eval :
    Deploy.persistDeployment fsEmpty "hardhat" sampleRecord
      "hardhat-2026-10-12T00-00-00.000Z.json" = some sampleRecord ∧
    Deploy.persistDeployment fsEmpty "hardhat" sampleRecord
      "hardhat-latest.json" = some sampleRecord ∧
    Deploy.persistDeployment fsEmpty "hardhat" sampleRecord
      "goerli-latest.json" = none := by
  have hsep : ∀ n', n' ≠ "hardhat" →
      Deploy.latestFileName n' ≠ Deploy.historyFileName "hardhat" sampleRecord := by
    intro n' _ he
    have hd : n'.data ++ ("-latest.json").data =
        (Deploy.historyFileName "hardhat" sampleRecord).data := congrArg String.data he
    exact absurd ⟨n'.data, hd⟩
      (by decide :
        ¬ ("-latest.json").data <:+ (Deploy.historyFileName "hardhat" sampleRecord).data)
  have h := persistDeployment_spec fsEmpty "hardhat" sampleRecord hsep
  refine ⟨?_, ?_, ?_⟩
  · exact ((by decide :
      "hardhat-2026-10-12T00-00-00.000Z.json" =
        Deploy.historyFileName "hardhat" sampleRecord) ▸ h.1)
  · exact h.2.1
  · exact (h.2.2.2 "goerli" (by decide)).trans rfl

/-- The record and event trace of a `deploy:jpycv2` run (the final
deployments directory projected away, so that outcomes compare
decidably). -/
def deployOutcome (utils : EthUtils) (numberConv : String → JsNum) (chain : Deploy.Chain)
    (env : Env) (paramsFile : Option Deploy.ParamsSource) (targetNetwork : Option String)
    (paramsPath : Option String) (verify v1only : Bool) (fs : FS) :
    Except Deploy.DeployErr (DeployRecord × List Deploy.Event) :=
  match Deploy.deployAction utils numberConv chain env paramsFile targetNetwork
      paramsPath verify v1only fs with
  | .error e => .error e
  | .ok (rec, evs, _) => .ok (rec, evs)

/-- C2: every successful `deploy:jpycv2` run deploys the proxy from the
`FiatTokenV1` factory, and upgrades to `FiatTokenV2` through an
`initializeV2` call - recording `implementationV2` and `upgradedAt` in
the deployment record - exactly when the `v1only` flag is not set. -/
theorem deployAction_factory_and_upgrade (utils : EthUtils) (numberConv : String → JsNum)
    (chain : Deploy.Chain) (env : Env) (paramsFile : Option Deploy.ParamsSource)
    (targetNetwork : Option String) (paramsPath : Option String) (verify v1only : Bool)
    (fs : FS) (rec : DeployRecord) (evs : List Deploy.Event)
    (h : deployOutcome utils numberConv chain env paramsFile targetNetwork paramsPath
      verify v1only fs = .ok (rec, evs)) :
    ((∃ args kind, Deploy.Event.deployProxy "FiatTokenV1" args kind ∈ evs) ∧
      (∀ f args kind, Deploy.Event.deployProxy f args kind ∈ evs → f = "FiatTokenV1")) ∧
    ((Deploy.Event.upgradeProxy "FiatTokenV2" "initializeV2" "uups" ∈ evs) ↔ v1only = false) ∧
    (∀ f c k, Deploy.Event.upgradeProxy f c k ∈ evs →
      f = "FiatTokenV2" ∧ c = "initializeV2" ∧ k = "uups") ∧
    ((rec.implementationV2 = some chain.implementationV2Address) ↔ v1only = false) ∧
    ((rec.upgradedAt = some chain.upgradedAt) ↔ v1only = false) := by
  unfold deployOutcome at h
  rcases ha : Deploy.deployAction utils numberConv chain env paramsFile targetNetwork
      paramsPath verify v1only fs with e | ⟨rec0, evs0, fs0⟩
  · rw [ha] at h
    exact Except.noConfusion h
  · rw [ha] at h
    obtain ⟨hrec, hevs⟩ := Prod.mk.injEq .. ▸ Except.ok.inj h
    subst hrec
    subst hevs
    rcases hsw : Deploy.switchNetwork chain targetNetwork with e | networkName <;>
      rw [Deploy.deployAction, hsw] at ha
    · exact Except.noConfusion ha
    rcases hd : chain.deployer with _ | deployer <;> rw [hd] at ha
    · exact Except.noConfusion ha
    rcases hsrc : Deploy.resolveSource env paramsFile paramsPath with e | src <;>
      rw [hsrc] at ha
    · exact Except.noConfusion ha
    dsimp only at ha
    rcases hlp : Deploy.loadParams utils numberConv src (truthy paramsPath)
        with e | params <;> rw [hlp] at ha
    · exact Except.noConfusion ha
    dsimp only at ha
    simp only [Deploy.upgradeToV2] at ha
    by_cases hv : (verify && chain.hasVerifyTask) = true <;>
      simp only [hv, if_true, if_false, Bool.not_eq_true] at ha <;>
      cases v1only <;>
      simp only [Bool.false_eq_true, if_true, if_false, ite_true, ite_false] at ha <;>
      simp only [Except.ok.injEq, Prod.mk.injEq] at ha <;>
      obtain ⟨hrec, hevs, -⟩ := ha <;>
      subst hrec <;> subst hevs <;> simp_all

/-- A concrete chain-capability outcome, for explicit evaluations. -/
def mockChain : Deploy.Chain :=
  { networkName := "hardhat", canChangeNetwork := false, deployer := some addrA,
    proxyAddress := addrB, implementationAddress := addrA, txHash := "0xaaa",
    deployedAt := "2026-10-12T00:00:00.000Z",
    implementationV2Address := "0x3333333333333333333333333333333333333333",
    upgradeTxHash := some "0xbbb", upgradedAt := "2026-10-12T01:00:00.000Z",
    hasVerifyTask := false }

/-- A concrete environment carrying the nine deployment parameters. -/
def envParams : Env := fun k =>
  if k = "TOKEN_NAME" then some "JPY Coin"
  else if k = "TOKEN_SYMBOL" then some "JPYC"
  else if k = "TOKEN_CURRENCY" then some "JPY"
  else if k = "TOKEN_DECIMALS" then some "18"
  else if k = "JPYC_MINTER_ADMIN" then some addrA
  else if k = "JPYC_PAUSER" then some addrA
  else if k = "JPYC_BLOCKLISTER" then some addrA
  else if k = "JPYC_RESCUER" then some addrA
  else if k = "JPYC_OWNER" then some addrA
  else none

/-- The constructor arguments of the evaluation deployment. -/
def sampleDeployArgs : List String :=
  ["JPY Coin", "JPYC", "JPY", "18", addrA, addrA, addrA, addrA, addrA]

/-- The event trace of the evaluation run with `v1only` set. -/
def sampleEventsV1 : List Deploy.Event :=
  [.deployProxy "FiatTokenV1" sampleDeployArgs "uups"]

/-- The event trace of the evaluation run without `v1only`. -/
def sampleEventsV2 : List Deploy.Event :=
  [.deployProxy "FiatTokenV1" sampleDeployArgs "uups",
   .upgradeProxy "FiatTokenV2" "initializeV2" "uups"]

/-- The final record of the evaluation run without `v1only`. -/
def sampleRecordV2 : DeployRecord :=
  { sampleRecord with
    upgradeTxHash := some "0xbbb",
    implementationV2 := some "0x3333333333333333333333333333333333333333",
    upgradedAt := some "2026-10-12T01:00:00.000Z" }

/-- Evaluation of `deployAction_factory_and_upgrade` on explicit inputs,
once without and once with the `v1only` flag. -/
theorem deployAction_factory_and_upgrade_eval :
    (Deploy.Event.upgradeProxy "FiatTokenV2" "initializeV2" "uups" ∈ sampleEventsV2) ∧
    sampleRecordV2.implementationV2 =
      some "0x3333333333333333333333333333333333333333" ∧
    Deploy.Event.upgradeProxy "FiatTokenV2" "initializeV2" "uups" ∉ sampleEventsV1 ∧
    sampleRecord.implementationV2 ≠
      some "0x3333333333333333333333333333333333333333" := by
  have h2 := deployAction_factory_and_upgrade mockEthUtils mockNumber mockChain
    envParams none none none false false fsEmpty sampleRecordV2 sampleEventsV2
    (by decide)
  have h1 := deployAction_factory_and_upgrade mockEthUtils mockNumber mockChain
    envParams none none none false true fsEmpty sampleRecord sampleEventsV1
    (by decide)
  exact ⟨h2.2.1.mpr rfl, h2.2.2.2.1.mpr rfl,
    fun hmem => Bool.noConfusion (h1.2.1.mp hmem),
    fun he => Bool.noConfusion (h1.2.2.2.1.mp he)⟩
